import Mathlib

/-!
Shallow embedding of the library-lending application in `app.py`
(trannhatduc2004/library-management1).

The data model mirrors the three SQLAlchemy models (`User`, `Book`,
`Borrow`); the persistent store (`db.session`) is a `LibraryState` record
holding the three tables plus auto-increment counters for primary keys.
Each Flask route's domain logic becomes a pure function on `LibraryState`:
a request that flashes an error and redirects without committing is an
`Except.error` leaving the state unchanged, a committed transaction is
`Except.ok` with the new state.  Timestamps are natural numbers counting
seconds (`datetime.utcnow()` becomes an explicit `now` parameter observed
once per operation); `timedelta(days=14)` is `14 * 86400` seconds.
Python integers are unbounded, so copy counts are `Int`.
-/

/-- Model of the `User` SQLAlchemy row. -/
structure User where
  id : Nat
  username : String
  password : String
  is_admin : Bool
deriving Repr, DecidableEq

/-- Model of the `Book` SQLAlchemy row. -/
structure Book where
  id : Nat
  title : String
  author : String
  category : String
  total_copies : Int
  available_copies : Int
deriving Repr, DecidableEq

/-- Model of the `Borrow` SQLAlchemy row.  `status` is the literal string
column with values `"borrowed"` or `"returned"`. -/
structure Borrow where
  id : Nat
  user_id : Nat
  book_id : Nat
  borrow_date : Nat
  due_date : Nat
  return_date : Option Nat
  status : String
deriving Repr, DecidableEq

/-- The persistent store: the three tables plus the auto-increment
primary-key counters the database assigns on insert. -/
structure LibraryState where
  users : List User
  books : List Book
  borrows : List Borrow
  nextUserId : Nat
  nextBookId : Nat
  nextBorrowId : Nat
deriving Repr, DecidableEq

/-- `timedelta(days=14)` in seconds. -/
def fourteenDays : Nat := 14 * 86400

/-- `Book.query.get_or_404(book_id)`: first row with the given primary key. -/
def findBook (s : LibraryState) (book_id : Nat) : Option Book :=
  s.books.find? (fun b => b.id == book_id)

/-- `Borrow.query.get_or_404(borrow_id)`. -/
def findBorrow (s : LibraryState) (borrow_id : Nat) : Option Borrow :=
  s.borrows.find? (fun br => br.id == borrow_id)

/-- Typed rejections of `borrow_book`: the 404 on an unknown book id, the
flash for an exhausted book, and the flash for a duplicate active borrow. -/
inductive BorrowError where
  | notFound
  | notAvailable
  | alreadyBorrowed
deriving Repr, DecidableEq

/-- Typed rejections of `return_book`. -/
inductive ReturnError where
  | notFound
  | notAuthorized
deriving Repr, DecidableEq

/-- Typed rejection of `edit_book` / `delete_book`. -/
inductive CatalogError where
  | notFound
deriving Repr, DecidableEq

/-- Typed rejection of `register`. -/
inductive RegisterError where
  | conflict
deriving Repr, DecidableEq

/-- The `borrow_book(book_id)` route body, acting as `user_id`
(`current_user.id`) at time `now`.  Mirrors `app.py` lines 188-217:
404 on unknown book, reject when `available_copies <= 0`, reject when an
active borrow by this user for this book exists, otherwise insert a
`Borrow` row (defaults: `borrow_date = utcnow`, `status = 'borrowed'`,
`due_date = utcnow + 14 days`) and decrement `available_copies`. -/
def borrow_book (s : LibraryState) (user_id book_id : Nat) (now : Nat) :
    Except BorrowError (LibraryState × Borrow) :=
  match findBook s book_id with
  | none => .error .notFound
  | some book =>
    if book.available_copies ≤ 0 then
      .error .notAvailable
    else
      match s.borrows.find? (fun br =>
          br.user_id == user_id && br.book_id == book_id && br.status == "borrowed") with
      | some _ => .error .alreadyBorrowed
      | none =>
        let borrow : Borrow :=
          { id := s.nextBorrowId
            user_id := user_id
            book_id := book_id
            borrow_date := now
            due_date := now + fourteenDays
            return_date := none
            status := "borrowed" }
        let books := s.books.map (fun b =>
          if b.id == book_id then
            { b with available_copies := b.available_copies - 1 }
          else b)
        .ok ({ s with books := books
                      borrows := s.borrows ++ [borrow]
                      nextBorrowId := s.nextBorrowId + 1 }, borrow)

/-- The `return_book(borrow_id)` route body, acting as `acting_user_id`
with admin flag `acting_is_admin` at time `now`.  Mirrors `app.py` lines
219-233: 404 on unknown borrow, reject when the actor neither owns the
borrow nor is admin, otherwise unconditionally set `status = 'returned'`,
stamp `return_date`, and increment the referenced book's
`available_copies` (no guard against an already-returned row). -/
def return_book (s : LibraryState) (borrow_id acting_user_id : Nat)
    (acting_is_admin : Bool) (now : Nat) : Except ReturnError LibraryState :=
  match findBorrow s borrow_id with
  | none => .error .notFound
  | some borrow =>
    if borrow.user_id != acting_user_id && !acting_is_admin then
      .error .notAuthorized
    else
      let borrows := s.borrows.map (fun br =>
        if br.id == borrow_id then
          { br with status := "returned", return_date := some now }
        else br)
      let books := s.books.map (fun b =>
        if b.id == borrow.book_id then
          { b with available_copies := b.available_copies + 1 }
        else b)
      .ok { s with borrows := borrows, books := books }

/-- The `add_book` route body (admin assumed, POST branch), `app.py` lines
141-150: no validation of any field; inserts a `Book` with
`total_copies = available_copies = copies`. -/
def add_book (s : LibraryState) (title author category : String)
    (copies : Int) : LibraryState × Book :=
  let book : Book :=
    { id := s.nextBookId
      title := title
      author := author
      category := category
      total_copies := copies
      available_copies := copies }
  ({ s with books := s.books ++ [book], nextBookId := s.nextBookId + 1 }, book)

/-- The `edit_book(book_id)` route body (admin assumed, POST branch),
`app.py` lines 155-174: 404 on unknown book, then overwrite title, author
and category, set `total_copies = copies` and shift `available_copies` by
`diff = copies - book.total_copies` computed from the loaded row. -/
def edit_book (s : LibraryState) (book_id : Nat)
    (title author category : String) (copies : Int) :
    Except CatalogError LibraryState :=
  match findBook s book_id with
  | none => .error .notFound
  | some book =>
    let diff := copies - book.total_copies
    let books := s.books.map (fun b =>
      if b.id == book_id then
        { b with title := title, author := author, category := category,
                 total_copies := copies,
                 available_copies := b.available_copies + diff }
      else b)
    .ok { s with books := books }

/-- The `delete_book(book_id)` route body (admin assumed), `app.py` lines
176-186: 404 on unknown book, otherwise delete the row (borrow rows are
left in place). -/
def delete_book (s : LibraryState) (book_id : Nat) :
    Except CatalogError LibraryState :=
  match findBook s book_id with
  | none => .error .notFound
  | some _ => .ok { s with books := s.books.filter (fun b => b.id != book_id) }

/-- Stand-in for `werkzeug`'s `generate_password_hash`; the hash function
is opaque to the model, only its output string is stored. -/
def generate_password_hash (rawPassword : String) : String :=
  "pbkdf2-hash:" ++ rawPassword

/-- The `register` route body (POST branch), `app.py` lines 68-83: reject
a username that is already taken, otherwise insert a non-admin `User`
with the hashed credential. -/
def register (s : LibraryState) (username rawPassword : String) :
    Except RegisterError LibraryState :=
  match s.users.find? (fun u => u.username == username) with
  | some _ => .error .conflict
  | none =>
    let user : User :=
      { id := s.nextUserId
        username := username
        password := generate_password_hash rawPassword
        is_admin := false }
    .ok { s with users := s.users ++ [user], nextUserId := s.nextUserId + 1 }

/-- One state-mutating request, with the identity and clock inputs the
request layer supplies. -/
inductive Op where
  | borrowOp (user_id book_id now : Nat)
  | returnOp (borrow_id acting_user_id : Nat) (acting_is_admin : Bool) (now : Nat)
  | addOp (title author category : String) (copies : Int)
  | editOp (book_id : Nat) (title author category : String) (copies : Int)
  | deleteOp (book_id : Nat)
  | registerOp (username rawPassword : String)
deriving Repr, DecidableEq

/-- Run one request against the store: a rejected request commits nothing
and leaves the state unchanged. -/
def applyOp (s : LibraryState) : Op → LibraryState
  | .borrowOp u b now =>
    match borrow_book s u b now with
    | .ok (s', _) => s'
    | .error _ => s
  | .returnOp bid a adm now =>
    match return_book s bid a adm now with
    | .ok s' => s'
    | .error _ => s
  | .addOp t a c n => (add_book s t a c n).1
  | .editOp bid t a c n =>
    match edit_book s bid t a c n with
    | .ok s' => s'
    | .error _ => s
  | .deleteOp bid =>
    match delete_book s bid with
    | .ok s' => s'
    | .error _ => s
  | .registerOp u p =>
    match register s u p with
    | .ok s' => s'
    | .error _ => s

/-- Run a sequence of requests left to right. -/
def applySeq (s : LibraryState) (ops : List Op) : LibraryState :=
  ops.foldl applyOp s

/-- Number of `Borrow` rows with `status = 'borrowed'` for a given book. -/
def activeBorrowsFor (s : LibraryState) (book_id : Nat) : Nat :=
  (s.borrows.filter (fun br => br.book_id == book_id && br.status == "borrowed")).length

/-- Number of `Borrow` rows (any status) referencing a given book:
`COUNT(borrow.id)` grouped by `book.id` after the inner join. -/
def bookBorrowCount (s : LibraryState) (book_id : Nat) : Nat :=
  (s.borrows.filter (fun br => br.book_id == book_id)).length

/-- Number of `Borrow` rows (any status) owned by a given user. -/
def userBorrowCount (s : LibraryState) (user_id : Nat) : Nat :=
  (s.borrows.filter (fun br => br.user_id == user_id)).length

/-- Descending insertion by the count component (`ORDER BY count DESC`);
ties are broken by keeping the earlier row first. -/
def insertByCount (x : Nat × String × Nat) :
    List (Nat × String × Nat) → List (Nat × String × Nat)
  | [] => [x]
  | y :: ys => if y.2.2 ≤ x.2.2 then x :: y :: ys else y :: insertByCount x ys

/-- Insertion sort by descending count. -/
def sortByCountDesc : List (Nat × String × Nat) → List (Nat × String × Nat)
  | [] => []
  | x :: xs => insertByCount x (sortByCountDesc xs)

/-- The `most_borrowed` query of `api_stats` (`app.py` lines 242-245):
inner-join Book with Borrow, group by `Book.id`, count borrow rows, order
by count descending, limit 5.  The inner join keeps exactly the books
with at least one borrow row.  Entries carry `(book id, title, count)`;
the route then serialises only title and count. -/
def most_borrowed (s : LibraryState) : List (Nat × String × Nat) :=
  (sortByCountDesc (s.books.filterMap (fun b =>
    if 0 < bookBorrowCount s b.id then some (b.id, b.title, bookBorrowCount s b.id)
    else none))).take 5

/-- The `active_users` query of `api_stats` (`app.py` lines 248-251),
same shape over users. -/
def active_users (s : LibraryState) : List (Nat × String × Nat) :=
  (sortByCountDesc (s.users.filterMap (fun u =>
    if 0 < userBorrowCount s u.id then some (u.id, u.username, userBorrowCount s u.id)
    else none))).take 5

/-- The JSON payload of `/api/stats` (admin assumed): the two ranking
lists projected to `(title, count)` / `(username, count)`. -/
def api_stats (s : LibraryState) : List (String × Nat) × List (String × Nat) :=
  ((most_borrowed s).map (fun e => (e.2.1, e.2.2)),
   (active_users s).map (fun e => (e.2.1, e.2.2)))

/-- `isCircB op` holds when `op` is a Circulation request (borrow or
return), the operations Claim C1 quantifies over. -/
def isCircB : Op → Bool
  | .borrowOp _ _ _ => true
  | .returnOp _ _ _ _ => true
  | _ => false

/-- A return request is safe when the borrow row it targets (if any) is
still in status `borrowed`; all other requests are safe. -/
def retOkB (s : LibraryState) : Op → Bool
  | .returnOp borrow_id _ _ _ =>
    s.borrows.all (fun br => br.id != borrow_id || br.status == "borrowed")
  | _ => true

/-- A request sequence never returns an already-returned borrow row. -/
def noDoubleReturnB : LibraryState → List Op → Bool
  | _, [] => true
  | s, op :: ops => retOkB s op && noDoubleReturnB (applyOp s op) ops

/-- The spec invariant of §3: at most one `Borrow` row with
`status = 'borrowed'` per (user, book) pair. -/
def atMostOneActiveL (l : List Borrow) : Prop :=
  ∀ br ∈ l, br.status = "borrowed" →
    (l.filter (fun x =>
      x.user_id == br.user_id && x.book_id == br.book_id &&
      x.status == "borrowed")).length ≤ 1

/-- State-level form of the at-most-one-active-borrow invariant. -/
def atMostOneActivePerPair (s : LibraryState) : Prop :=
  atMostOneActiveL s.borrows

/-- Whether a user currently holds an active borrow of a book (the
`existing` query of `borrow_book`). -/
def hasActiveBorrow (s : LibraryState) (u b : Nat) : Bool :=
  (s.borrows.find? (fun br =>
    br.user_id == u && br.book_id == b && br.status == "borrowed")).isSome

/-- Inductive invariant for Claim C1: the store holds the single book
under scrutiny, its `available_copies` balances the active borrows
against `total`, stays nonnegative, every borrow row references that
book, and borrow primary keys are distinct and below the counter. -/
def SingleBookInv (bid : Nat) (total : Int) (s : LibraryState) : Prop :=
  (∃ bk : Book, s.books = [bk] ∧ bk.id = bid ∧ bk.total_copies = total ∧
    bk.available_copies + (activeBorrowsFor s bid : Int) = total ∧
    0 ≤ bk.available_copies) ∧
  (∀ br ∈ s.borrows, br.book_id = bid) ∧
  (s.borrows.map (fun br => br.id)).Nodup ∧
  (∀ br ∈ s.borrows, br.id < s.nextBorrowId)

/- Concrete stores used by witnesses and counterexamples. -/

/-- A store with no rows at all. -/
def emptyLib : LibraryState := ⟨[], [], [], 1, 1, 1⟩

/-- One book with a single copy on the shelf. -/
def oneBookLib : LibraryState :=
  ⟨[], [⟨1, "T", "A", "C", 1, 1⟩], [], 1, 2, 1⟩

/-- One book with no copy left (`available_copies = 0`). -/
def exhaustedLib : LibraryState :=
  ⟨[], [⟨1, "T", "A", "C", 1, 0⟩], [], 1, 2, 1⟩

/-- One book whose only borrow has already been returned;
`available_copies` is back to `total_copies = 1`. -/
def returnedLib : LibraryState :=
  ⟨[], [⟨1, "T", "A", "C", 1, 1⟩],
   [⟨1, 7, 1, 0, fourteenDays, some 5, "returned"⟩], 1, 2, 2⟩

/-- User 7 holds an active borrow of book 1 while one copy remains. -/
def borrowedLib : LibraryState :=
  ⟨[⟨7, "alice", "pw", false⟩], [⟨1, "T", "A", "C", 2, 1⟩],
   [⟨1, 7, 1, 0, fourteenDays, none, "borrowed"⟩], 8, 2, 2⟩

/-- User 7 holds the last copy of book 1 (`available_copies = 0`). -/
def heldLastCopyLib : LibraryState :=
  ⟨[⟨7, "alice", "pw", false⟩], [⟨1, "T", "A", "C", 1, 0⟩],
   [⟨1, 7, 1, 0, fourteenDays, none, "borrowed"⟩], 8, 2, 2⟩

/-- One book with 5 total copies, 3 of them on the shelf. -/
def editLib : LibraryState :=
  ⟨[], [⟨1, "T", "A", "C", 5, 3⟩], [], 1, 2, 1⟩

/-- Two books and two users; only book 1 / user 7 have a (returned)
borrow row. -/
def statsLib : LibraryState :=
  ⟨[⟨7, "alice", "pw", false⟩, ⟨8, "bob", "pw", false⟩],
   [⟨1, "T", "A", "C", 1, 1⟩, ⟨2, "U", "B", "C", 1, 1⟩],
   [⟨1, 7, 1, 0, fourteenDays, some 5, "returned"⟩], 9, 3, 2⟩

/-- One book with two copies, both on the shelf. -/
def twoCopyLib : LibraryState :=
  ⟨[], [⟨1, "T", "A", "C", 2, 2⟩], [], 1, 2, 1⟩

/-- Borrow, return, then return the same borrow row a second time. -/
def doubleReturnOps : List Op :=
  [.borrowOp 7 1 0, .returnOp 1 7 false 5, .returnOp 1 7 false 6]

/-- Borrow, return, borrow again — no double return. -/
def wellBehavedOps : List Op :=
  [.borrowOp 7 1 0, .returnOp 1 7 false 5, .borrowOp 8 1 6]

/-- The borrow row created by borrowing book 1 from `oneBookLib` as user
7 at time 0. -/
def newBorrowRec : Borrow := ⟨1, 7, 1, 0, fourteenDays, none, "borrowed"⟩

/-- The store `oneBookLib` after that borrow. -/
def oneBookAfterBorrow : LibraryState :=
  ⟨[], [⟨1, "T", "A", "C", 1, 0⟩], [newBorrowRec], 1, 2, 2⟩

/-- The store `borrowedLib` after user 7 returns borrow 1 at time 9. -/
def borrowedLibAfterReturn : LibraryState :=
  ⟨[⟨7, "alice", "pw", false⟩], [⟨1, "T", "A", "C", 2, 2⟩],
   [⟨1, 7, 1, 0, fourteenDays, some 9, "returned"⟩], 8, 2, 2⟩

/-! ## Claim theorems -/

/-- Claim C4: in every state in which a book has `available_copies ≤ 0`,
`borrow_book` on that book fails with the not-available rejection and
leaves the entire state unchanged. -/
theorem borrow_book_not_available (s : LibraryState) (u b now : Nat) (bk : Book)
    (hfind : findBook s b = some bk) (hle : bk.available_copies ≤ 0) :
    borrow_book s u b now = .error .notAvailable ∧
    applyOp s (.borrowOp u b now) = s := by
  have h1 : borrow_book s u b now = .error .notAvailable := by
    unfold borrow_book
    rw [hfind]
    simp [hle]
  refine ⟨h1, ?_⟩
  simp only [applyOp, h1]

/-- Witness for C4: borrowing the exhausted book of `exhaustedLib`. -/
theorem borrow_book_not_available_witness :
    borrow_book exhaustedLib 7 1 0 = .error .notAvailable ∧
    applyOp exhaustedLib (.borrowOp 7 1 0) = exhaustedLib :=
  borrow_book_not_available exhaustedLib 7 1 0 ⟨1, "T", "A", "C", 1, 0⟩ rfl
    (by decide)

/-- Claim C8: for a book id not present in the catalog, `borrow_book`
fails with the not-found rejection — regardless of any availability or
duplicate-borrow condition — and the state is unchanged. -/
theorem borrow_book_unknown_book (s : LibraryState) (u b now : Nat)
    (hfind : findBook s b = none) :
    borrow_book s u b now = .error .notFound ∧
    applyOp s (.borrowOp u b now) = s := by
  have h1 : borrow_book s u b now = .error .notFound := by
    unfold borrow_book
    rw [hfind]
  refine ⟨h1, ?_⟩

  simp only [applyOp, h1]

/-- Witness for C8: borrowing from the empty catalog. -/
theorem borrow_book_unknown_book_witness :
    borrow_book emptyLib 7 1 0 = .error .notFound ∧
    applyOp emptyLib (.borrowOp 7 1 0) = emptyLib :=
  borrow_book_unknown_book emptyLib 7 1 0 rfl

/-- Claim C2 (code bug): `return_book` has no guard on `status`, so a
second return of the already-returned borrow row 1 of `returnedLib`
increments the book's `available_copies` again, from 1 to 2. -/
theorem return_book_double_increment :
    returnedLib.borrows.map (fun br => br.status) = ["returned"] ∧
    (returnedLib.books.map (fun b => b.available_copies) = [1]) ∧
    return_book returnedLib 1 7 false 9 =
      .ok ⟨[], [⟨1, "T", "A", "C", 1, 2⟩],
           [⟨1, 7, 1, 0, fourteenDays, some 9, "returned"⟩], 1, 2, 2⟩ :=
  ⟨rfl, rfl, rfl⟩

/-- Counterexample to Claim C3 as stated: `add_book` performs no
validation, so with `copies = -1` and empty title/author a `Book` row is
created anyway (with negative counts) instead of failing. -/
theorem add_book_no_validation_cex :
    (add_book emptyLib "" "" "" (-1)).1.books =
      [⟨1, "", "", "", -1, -1⟩] := rfl

/-- Claim C3 (amended): `add_book` never validates its input: for every
title, author, category and copy count (including negative counts and
empty strings) it appends a new `Book` whose `total_copies` and
`available_copies` both equal the requested count. -/
theorem add_book_always_creates (s : LibraryState) (t a c : String) (n : Int) :
    (add_book s t a c n).1.books = s.books ++ [(add_book s t a c n).2] ∧
    (add_book s t a c n).2.title = t ∧
    (add_book s t a c n).2.author = a ∧
    (add_book s t a c n).2.category = c ∧
    (add_book s t a c n).2.total_copies = n ∧
    (add_book s t a c n).2.available_copies = n :=
  ⟨rfl, rfl, rfl, rfl, rfl, rfl⟩

/-- Claim C6: editing a book whose `total_copies` is `bk.total_copies`
to a new count `m` stores total `m` and shifts `available_copies` by
exactly `m - bk.total_copies` — no clamping — while every other book row
is untouched. -/
theorem edit_book_shifts_available (s : LibraryState) (bid : Nat)
    (t a c : String) (m : Int) (bk : Book)
    (hfind : findBook s bid = some bk) :
    ∃ s', edit_book s bid t a c m = .ok s' ∧
      ({ bk with title := t, author := a, category := c,
                 total_copies := m,
                 available_copies :=
                   bk.available_copies + (m - bk.total_copies) } : Book)
        ∈ s'.books ∧
      ∀ b ∈ s.books, b.id ≠ bid → b ∈ s'.books := by
  have hfind' : s.books.find? (fun b' => b'.id == bid) = some bk := hfind
  have hbk : (bk.id == bid) = true := by
    simpa using List.find?_some hfind'
  have hmem : bk ∈ s.books := List.mem_of_find?_eq_some hfind'
  unfold edit_book
  rw [hfind]
  refine ⟨_, rfl, ?_, ?_⟩
  · refine List.mem_map.mpr ⟨bk, hmem, ?_⟩
    rw [if_pos hbk]
  · intro b hb hne
    refine List.mem_map.mpr ⟨b, hb, ?_⟩
    have hne' : (b.id == bid) = false := by
      simpa using hne
    simp [hne']

/-- Witness for C6: shrinking the 5-copy book of `editLib` to 2 copies
moves `available_copies` from 3 to 0. -/
theorem edit_book_shifts_available_witness :
    ∃ s', edit_book editLib 1 "X" "Y" "Z" 2 = .ok s' ∧
      ({ id := 1, title := "X", author := "Y", category := "Z",
         total_copies := 2, available_copies := 3 + (2 - 5) } : Book)
        ∈ s'.books ∧
      ∀ b ∈ editLib.books, b.id ≠ 1 → b ∈ s'.books :=
  edit_book_shifts_available editLib 1 "X" "Y" "Z" 2 ⟨1, "T", "A", "C", 5, 3⟩
    rfl

/-- Claim C7: every borrow row created by a successful `borrow_book` has
status `borrowed`, no return timestamp, borrow timestamp `now`, and due
timestamp exactly fourteen days after the borrow timestamp; the row is
inserted into the store. -/
theorem borrow_record_fields (s : LibraryState) (u b now : Nat)
    (s' : LibraryState) (br : Borrow)
    (h : borrow_book s u b now = .ok (s', br)) :
    br.status = "borrowed" ∧ br.return_date = none ∧
    br.borrow_date = now ∧ br.due_date = br.borrow_date + fourteenDays ∧
    br.user_id = u ∧ br.book_id = b ∧ br ∈ s'.borrows := by
  unfold borrow_book at h
  split at h
  · simp at h
  · split at h
    · simp at h
    · split at h
      · simp at h
      · simp only [Except.ok.injEq, Prod.mk.injEq] at h
        obtain ⟨hs, hbr⟩ := h
        subst hbr
        subst hs
        refine ⟨rfl, rfl, rfl, rfl, rfl, rfl, ?_⟩
        simp

/-- Witness for C7: the row created by borrowing from `oneBookLib`. -/
theorem borrow_record_fields_witness :
    newBorrowRec.status = "borrowed" ∧ newBorrowRec.return_date = none ∧
    newBorrowRec.borrow_date = 0 ∧
    newBorrowRec.due_date = newBorrowRec.borrow_date + fourteenDays ∧
    newBorrowRec.user_id = 7 ∧ newBorrowRec.book_id = 1 ∧
    newBorrowRec ∈ oneBookAfterBorrow.borrows :=
  borrow_record_fields oneBookLib 7 1 0 oneBookAfterBorrow newBorrowRec rfl

/-- Claim C9: a successful `return_book` changes only the target borrow
row's `status` and `return_date` and the referenced book's
`available_copies`.  Users and counters are untouched, every borrow row
keeps its id, user, book, borrow timestamp and due timestamp, every
borrow row other than the target is completely unchanged, and every book
row other than the one referenced by the target keeps all its fields,
the others keeping everything but `available_copies`. -/
theorem return_book_frame (s : LibraryState) (bid a : Nat) (adm : Bool)
    (now : Nat) (s' : LibraryState)
    (h : return_book s bid a adm now = .ok s') :
    s'.users = s.users ∧
    s'.nextUserId = s.nextUserId ∧ s'.nextBookId = s.nextBookId ∧
    s'.nextBorrowId = s.nextBorrowId ∧
    (∀ br ∈ s.borrows, br.id ≠ bid → br ∈ s'.borrows) ∧
    (∀ br' ∈ s'.borrows, ∃ br ∈ s.borrows,
      br'.id = br.id ∧ br'.user_id = br.user_id ∧ br'.book_id = br.book_id ∧
      br'.borrow_date = br.borrow_date ∧ br'.due_date = br.due_date) ∧
    ∃ br0 ∈ s.borrows, br0.id = bid ∧
      (∀ b ∈ s.books, b.id ≠ br0.book_id → b ∈ s'.books) ∧
      (∀ b' ∈ s'.books, ∃ b ∈ s.books,
        b'.id = b.id ∧ b'.title = b.title ∧ b'.author = b.author ∧
        b'.category = b.category ∧ b'.total_copies = b.total_copies) := by
  unfold return_book at h
  split at h
  · simp at h
  next borrow heq =>
    split at h
    · simp at h
    · simp only [Except.ok.injEq] at h
      subst h
      have hfind' : s.borrows.find? (fun br => br.id == bid) = some borrow := heq
      have hmem : borrow ∈ s.borrows := List.mem_of_find?_eq_some hfind'
      have hid : borrow.id = bid := by
        simpa using List.find?_some hfind'
      refine ⟨rfl, rfl, rfl, rfl, ?_, ?_, borrow, hmem, hid, ?_, ?_⟩
      · intro br hbr hne
        refine List.mem_map.mpr ⟨br, hbr, ?_⟩
        have hne' : (br.id == bid) = false := by simpa using hne
        simp [hne']
      · intro br' hbr'
        obtain ⟨br, hbr, hf⟩ := List.mem_map.mp hbr'
        refine ⟨br, hbr, ?_⟩
        cases hc : (br.id == bid) with
        | true =>
          simp only [hc, if_true] at hf
          subst hf
          exact ⟨rfl, rfl, rfl, rfl, rfl⟩
        | false =>
          simp only [hc, Bool.false_eq_true, if_false] at hf
          subst hf
          exact ⟨rfl, rfl, rfl, rfl, rfl⟩
      · intro b hb hne
        refine List.mem_map.mpr ⟨b, hb, ?_⟩
        have hne' : (b.id == borrow.book_id) = false := by simpa using hne
        simp [hne']
      · intro b' hb'
        obtain ⟨b, hb, hf⟩ := List.mem_map.mp hb'
        refine ⟨b, hb, ?_⟩
        cases hc : (b.id == borrow.book_id) with
        | true =>
          simp only [hc, if_true] at hf
          subst hf
          exact ⟨rfl, rfl, rfl, rfl, rfl⟩
        | false =>
          simp only [hc, Bool.false_eq_true, if_false] at hf
          subst hf
          exact ⟨rfl, rfl, rfl, rfl, rfl⟩

/-- Witness for C9: user 7 returns borrow 1 in `borrowedLib`. -/
theorem return_book_frame_witness :
    borrowedLibAfterReturn.users = borrowedLib.users ∧
    borrowedLibAfterReturn.nextUserId = borrowedLib.nextUserId ∧
    borrowedLibAfterReturn.nextBookId = borrowedLib.nextBookId ∧
    borrowedLibAfterReturn.nextBorrowId = borrowedLib.nextBorrowId ∧
    (∀ br ∈ borrowedLib.borrows, br.id ≠ 1 →
      br ∈ borrowedLibAfterReturn.borrows) ∧
    (∀ br' ∈ borrowedLibAfterReturn.borrows, ∃ br ∈ borrowedLib.borrows,
      br'.id = br.id ∧ br'.user_id = br.user_id ∧ br'.book_id = br.book_id ∧
      br'.borrow_date = br.borrow_date ∧ br'.due_date = br.due_date) ∧
    ∃ br0 ∈ borrowedLib.borrows, br0.id = 1 ∧
      (∀ b ∈ borrowedLib.books, b.id ≠ br0.book_id →
        b ∈ borrowedLibAfterReturn.books) ∧
      (∀ b' ∈ borrowedLibAfterReturn.books, ∃ b ∈ borrowedLib.books,
        b'.id = b.id ∧ b'.title = b.title ∧ b'.author = b.author ∧
        b'.category = b.category ∧ b'.total_copies = b.total_copies) :=
  return_book_frame borrowedLib 1 7 false 9 borrowedLibAfterReturn rfl

/-- Membership is preserved by the descending insertion. -/
theorem mem_insertByCount {x y : Nat × String × Nat}
    {l : List (Nat × String × Nat)} :
    y ∈ insertByCount x l ↔ y = x ∨ y ∈ l := by
  induction l with
  | nil => simp [insertByCount]
  | cons z zs ih =>
    unfold insertByCount
    split
    · simp
    · simp only [List.mem_cons, ih]
      tauto

/-- Sorting by descending count does not change membership. -/
theorem mem_sortByCountDesc {y : Nat × String × Nat}
    {l : List (Nat × String × Nat)} :
    y ∈ sortByCountDesc l ↔ y ∈ l := by
  induction l with
  | nil => simp [sortByCountDesc]
  | cons z zs ih => simp [sortByCountDesc, mem_insertByCount, ih]

/-- Every entry of the most-borrowed ranking comes from a book with a
positive borrow-row count, carrying exactly that count. -/
theorem mem_most_borrowed (s : LibraryState) (e : Nat × String × Nat)
    (he : e ∈ most_borrowed s) :
    ∃ b ∈ s.books, e = (b.id, b.title, bookBorrowCount s b.id) ∧
      0 < bookBorrowCount s b.id := by
  have h1 : e ∈ sortByCountDesc (s.books.filterMap (fun b =>
      if 0 < bookBorrowCount s b.id then
        some (b.id, b.title, bookBorrowCount s b.id)
      else none)) := List.take_subset _ _ he
  have h2 := mem_sortByCountDesc.mp h1
  obtain ⟨b, hb, hfb⟩ := List.mem_filterMap.mp h2
  by_cases hc : 0 < bookBorrowCount s b.id
  · simp only [hc, if_true, Option.some.injEq] at hfb
    exact ⟨b, hb, hfb.symm, hc⟩
  · simp only [hc, if_false] at hfb
    exact Option.noConfusion hfb

/-- Every entry of the active-users ranking comes from a user with a
positive borrow-row count, carrying exactly that count. -/
theorem mem_active_users (s : LibraryState) (e : Nat × String × Nat)
    (he : e ∈ active_users s) :
    ∃ u ∈ s.users, e = (u.id, u.username, userBorrowCount s u.id) ∧
      0 < userBorrowCount s u.id := by
  have h1 : e ∈ sortByCountDesc (s.users.filterMap (fun u =>
      if 0 < userBorrowCount s u.id then
        some (u.id, u.username, userBorrowCount s u.id)
      else none)) := List.take_subset _ _ he
  have h2 := mem_sortByCountDesc.mp h1
  obtain ⟨u, hu, hfu⟩ := List.mem_filterMap.mp h2
  by_cases hc : 0 < userBorrowCount s u.id
  · simp only [hc, if_true, Option.some.injEq] at hfu
    exact ⟨u, hu, hfu.symm, hc⟩
  · simp only [hc, if_false] at hfu
    exact Option.noConfusion hfu

/-- Claim C10: a book with zero borrow rows never appears in the
most-borrowed ranking and a user with zero borrow rows never appears in
the active-users ranking, while every listed count equals the number of
borrow rows of that book/user counted regardless of status (returned
rows included). -/
theorem stats_zero_borrow_excluded (s : LibraryState) :
    (∀ e ∈ most_borrowed s, 0 < e.2.2 ∧ e.2.2 = bookBorrowCount s e.1) ∧
    (∀ b ∈ s.books, bookBorrowCount s b.id = 0 →
      ∀ t c, (b.id, t, c) ∉ most_borrowed s) ∧
    (∀ e ∈ active_users s, 0 < e.2.2 ∧ e.2.2 = userBorrowCount s e.1) ∧
    (∀ u ∈ s.users, userBorrowCount s u.id = 0 →
      ∀ t c, (u.id, t, c) ∉ active_users s) := by
  refine ⟨?_, ?_, ?_, ?_⟩
  · intro e he
    obtain ⟨b, _, hee, hpos⟩ := mem_most_borrowed s e he
    subst hee
    exact ⟨hpos, rfl⟩
  · intro b _ hzero t c hmem
    obtain ⟨b', _, hee, hpos⟩ := mem_most_borrowed s (b.id, t, c) hmem
    have hid : b'.id = b.id := (congrArg Prod.fst hee).symm
    rw [hid] at hpos
    omega
  · intro e he
    obtain ⟨u, _, hee, hpos⟩ := mem_active_users s e he
    subst hee
    exact ⟨hpos, rfl⟩
  · intro u _ hzero t c hmem
    obtain ⟨u', _, hee, hpos⟩ := mem_active_users s (u.id, t, c) hmem
    have hid : u'.id = u.id := (congrArg Prod.fst hee).symm
    rw [hid] at hpos
    omega

/-- Witness for C10 over `statsLib`: the returned borrow of book 1 by
user 7 counts (so their entries carry count 1), and the borrow-free book
2 / user 8 are absent from the rankings. -/
theorem stats_zero_borrow_excluded_witness :
    (0 < (1, "T", 1).2.2 ∧
      (1, "T", 1).2.2 = bookBorrowCount statsLib (1, "T", 1).1) ∧
    ((2 : Nat), "U", (5 : Nat)) ∉ most_borrowed statsLib ∧
    (0 < (7, "alice", 1).2.2 ∧
      (7, "alice", 1).2.2 = userBorrowCount statsLib (7, "alice", 1).1) ∧
    ((8 : Nat), "bob", (5 : Nat)) ∉ active_users statsLib :=
  ⟨(stats_zero_borrow_excluded statsLib).1 (1, "T", 1) (by decide),
   (stats_zero_borrow_excluded statsLib).2.1 ⟨2, "U", "B", "C", 1, 1⟩
     (by decide) (by decide) "U" 5,
   (stats_zero_borrow_excluded statsLib).2.2.1 (7, "alice", 1) (by decide),
   (stats_zero_borrow_excluded statsLib).2.2.2 ⟨8, "bob", "pw", false⟩
     (by decide) (by decide) "bob" 5⟩

/-- If `p` holds of an image only when `q` held of the source element,
filtering the mapped list is no longer than filtering the original. -/
theorem length_filter_map_le {α β : Type} (g : α → β) (p : β → Bool)
    (q : α → Bool) (h : ∀ x, p (g x) = true → q x = true) (l : List α) :
    ((l.map g).filter p).length ≤ (l.filter q).length := by
  induction l with
  | nil => simp
  | cons x xs ih =>
    simp only [List.map_cons, List.filter_cons]
    by_cases hp : p (g x) = true
    · have hq := h x hp
      simp only [hp, hq, if_true, List.length_cons]
      omega
    · have hp' : p (g x) = false := by simpa using hp
      simp only [hp', Bool.false_eq_true, if_false]
      by_cases hq : q x = true
      · simp only [hq, if_true, List.length_cons]
        omega
      · have hq' : q x = false := by simpa using hq
        simp only [hq', Bool.false_eq_true, if_false]
        exact ih

/-- Counterexample to Claim C5 as stated: in `heldLastCopyLib` user 7
already holds an active borrow of book 1, yet a second borrow attempt is
rejected as `notAvailable` — the availability check fires before the
duplicate-borrow check — not as `alreadyBorrowed`. -/
theorem second_borrow_error_cex :
    hasActiveBorrow heldLastCopyLib 7 1 = true ∧
    borrow_book heldLastCopyLib 7 1 5 = .error .notAvailable ∧
    BorrowError.notAvailable ≠ BorrowError.alreadyBorrowed :=
  ⟨rfl, rfl, by decide⟩

/-- Claim C5 (amended): when a user already holds an active borrow of a
book, a second `borrow_book` always fails and creates no borrow row —
with `alreadyBorrowed` whenever copies are available, and with
`notAvailable` otherwise — and the at-most-one-active-borrow-per-
(user, book) invariant is preserved by every operation. -/
theorem second_borrow_fails_and_invariant (s : LibraryState) (u b now : Nat) :
    (hasActiveBorrow s u b = true →
      applyOp s (.borrowOp u b now) = s ∧
      ∀ bk, findBook s b = some bk → 0 < bk.available_copies →
        borrow_book s u b now = .error .alreadyBorrowed) ∧
    (∀ op : Op, atMostOneActivePerPair s → atMostOneActivePerPair (applyOp s op)) := by
  constructor
  · intro hact
    have hact' : (s.borrows.find? (fun br =>
        br.user_id == u && br.book_id == b && br.status == "borrowed")).isSome
          = true := hact
    obtain ⟨ex, hex⟩ := Option.isSome_iff_exists.mp hact'
    cases hf : findBook s b with
    | none =>
      have h1 : borrow_book s u b now = .error .notFound := by
        unfold borrow_book
        rw [hf]
      refine ⟨by simp only [applyOp, h1], ?_⟩
      intro bk hbk
      exact absurd hbk (by simp)
    | some bk =>
      by_cases hle : bk.available_copies ≤ 0
      · have h1 : borrow_book s u b now = .error .notAvailable := by
          unfold borrow_book
          rw [hf]
          simp [hle]
        refine ⟨by simp only [applyOp, h1], ?_⟩
        intro bk' hbk' hpos
        have hbkk : bk = bk' := by
          simpa using hbk'
        subst hbkk
        omega
      · have h1 : borrow_book s u b now = .error .alreadyBorrowed := by
          unfold borrow_book
          rw [hf]
          simp [hle, hex]
        refine ⟨by simp only [applyOp, h1], ?_⟩
        intro bk' hbk' hpos
        exact h1
  · intro op hinv
    cases op with
    | addOp t a c n => exact hinv
    | registerOp un pw =>
      have hb : (applyOp s (.registerOp un pw)).borrows = s.borrows := by
        simp only [applyOp]
        split
        next s' hr =>
          unfold register at hr
          split at hr
          · simp at hr
          · simp only [Except.ok.injEq] at hr
            subst hr
            rfl
        next => rfl
      unfold atMostOneActivePerPair
      rw [hb]
      exact hinv
    | editOp bid t a c n =>
      have hb : (applyOp s (.editOp bid t a c n)).borrows = s.borrows := by
        simp only [applyOp]
        split
        next s' hr =>
          unfold edit_book at hr
          split at hr
          · simp at hr
          · simp only [Except.ok.injEq] at hr
            subst hr
            rfl
        next => rfl
      unfold atMostOneActivePerPair
      rw [hb]
      exact hinv
    | deleteOp bid =>
      have hb : (applyOp s (.deleteOp bid)).borrows = s.borrows := by
        simp only [applyOp]
        split
        next s' hr =>
          unfold delete_book at hr
          split at hr
          · simp at hr
          · simp only [Except.ok.injEq] at hr
            subst hr
            rfl
        next => rfl
      unfold atMostOneActivePerPair
      rw [hb]
      exact hinv
    | returnOp bid a adm now' =>
      simp only [applyOp]
      split
      next s' hr =>
        unfold return_book at hr
        split at hr
        · simp at hr
        next borrow heq =>
          split at hr
          · simp at hr
          · simp only [Except.ok.injEq] at hr
            subst hr
            intro br' hbr' hst
            obtain ⟨br, hbr, hf⟩ := List.mem_map.mp hbr'
            cases hc : (br.id == bid) with
            | true =>
              have hret : br'.status = "returned" := by
                rw [← hf]
                simp [hc]
              rw [hret] at hst
              exact absurd hst (by decide)
            | false =>
              have hgbr : br' = br := by
                rw [← hf]
                simp [hc]
              subst hgbr
              have hold := hinv br' hbr hst
              have hle := length_filter_map_le
                (fun x => if x.id == bid then
                  { x with status := "returned", return_date := some now' }
                 else x)
                (fun x => x.user_id == br'.user_id && x.book_id == br'.book_id
                  && x.status == "borrowed")
                (fun x => x.user_id == br'.user_id && x.book_id == br'.book_id
                  && x.status == "borrowed")
                (by
                  intro x hx
                  by_cases hcx : (x.id == bid) = true
                  · simp [hcx] at hx
                  · simp only [Bool.not_eq_true] at hcx
                    simp [hcx] at hx
                    simpa using hx)
                s.borrows
              exact le_trans hle hold
      next => exact hinv
    | borrowOp u' b' now'' =>
      simp only [applyOp]
      split
      next s' brNew heq =>
        unfold borrow_book at heq
        split at heq
        · simp at heq
        next bk hfb =>
          split at heq
          · simp at heq
          · split at heq
            · simp at heq
            next hfindNone =>
              simp only [Except.ok.injEq, Prod.mk.injEq] at heq
              obtain ⟨hs, -⟩ := heq
              subst hs
              intro br' hbr' hst
              have hnone : ∀ x ∈ s.borrows,
                  ¬((x.user_id == u' && x.book_id == b'
                     && x.status == "borrowed") = true) :=
                List.find?_eq_none.mp hfindNone
              rw [List.mem_append] at hbr'
              rcases hbr' with hmem | hnb
              · rw [List.filter_append, List.length_append]
                by_cases hpair : br'.user_id = u' ∧ br'.book_id = b'
                · exfalso
                  refine hnone br' hmem ?_
                  simp [hpair.1, hpair.2, hst]
                · have hnbf : ((⟨s.nextBorrowId, u', b', now'',
                      now'' + fourteenDays, none, "borrowed"⟩ : Borrow).user_id
                        == br'.user_id &&
                      (⟨s.nextBorrowId, u', b', now'',
                        now'' + fourteenDays, none, "borrowed"⟩ : Borrow).book_id
                        == br'.book_id &&
                      (⟨s.nextBorrowId, u', b', now'',
                        now'' + fourteenDays, none, "borrowed"⟩ : Borrow).status
                        == "borrowed") = false := by
                    simp only [Bool.and_eq_false_iff]
                    by_cases h1 : u' = br'.user_id
                    · by_cases h2 : b' = br'.book_id
                      · exact absurd ⟨h1.symm, h2.symm⟩ hpair
                      · exact Or.inl (Or.inr (by simpa using h2))
                    · exact Or.inl (Or.inl (by simpa using h1))
                  rw [List.filter_cons, hnbf]
                  simp only [Bool.false_eq_true, if_false, List.filter_nil,
                    List.length_nil]
                  have := hinv br' hmem hst
                  omega
              · have hbr'' : br' = ⟨s.nextBorrowId, u', b', now'',
                    now'' + fourteenDays, none, "borrowed"⟩ := by
                  simpa using hnb
                subst hbr''
                rw [List.filter_append, List.length_append]
                have hfl : (s.borrows.filter (fun x =>
                    x.user_id == u' && x.book_id == b'
                    && x.status == "borrowed")).length = 0 := by
                  rw [List.length_eq_zero, List.filter_eq_nil_iff]
                  intro x hx
                  exact hnone x hx
                rw [hfl]
                simp
      next => exact hinv

/-- Witness for C5: in `borrowedLib` user 7 already holds book 1 while a
copy remains, so the second borrow is rejected as already borrowed with
no state change, and the invariant survives that request. -/
theorem second_borrow_fails_and_invariant_witness :
    (applyOp borrowedLib (.borrowOp 7 1 5) = borrowedLib ∧
      borrow_book borrowedLib 7 1 5 = .error .alreadyBorrowed) ∧
    atMostOneActivePerPair (applyOp borrowedLib (.borrowOp 7 1 5)) :=
  ⟨⟨((second_borrow_fails_and_invariant borrowedLib 7 1 5).1 rfl).1,
    ((second_borrow_fails_and_invariant borrowedLib 7 1 5).1 rfl).2
      ⟨1, "T", "A", "C", 2, 1⟩ rfl (by decide)⟩,
   (second_borrow_fails_and_invariant borrowedLib 7 1 5).2 (.borrowOp 7 1 5)
     (by
       unfold atMostOneActivePerPair atMostOneActiveL
       decide)⟩

/-- Marking the borrow row with key `bid0` as returned removes exactly
one element from a filter `p` that requires status `borrowed` and that
the row `br0` (the row with that key) satisfies, provided borrow ids
are distinct. -/
theorem length_filter_markReturned (l : List Borrow) (bid0 now : Nat)
    (p : Borrow → Bool) (hp : ∀ x, p x = true → x.status = "borrowed")
    (hnd : (l.map (fun br => br.id)).Nodup) (br0 : Borrow)
    (hmem : br0 ∈ l) (hid : br0.id = bid0) (hp0 : p br0 = true) :
    ((l.map (fun br => if br.id == bid0 then
        { br with status := "returned", return_date := some now }
      else br)).filter p).length + 1 = (l.filter p).length := by
  induction l with
  | nil => cases hmem
  | cons x xs ih =>
    have hnd' : x.id ∉ xs.map (fun br => br.id) ∧
        (xs.map (fun br => br.id)).Nodup := by
      rw [List.map_cons, List.nodup_cons] at hnd
      exact hnd
    by_cases hx : x.id = bid0
    · have hbr0x : br0 = x := by
        rcases List.mem_cons.mp hmem with h | h
        · exact h
        · exfalso
          apply hnd'.1
          have hmm : br0.id ∈ xs.map (fun br => br.id) :=
            List.mem_map_of_mem _ h
          rw [hid] at hmm
          rw [hx]
          exact hmm
      subst hbr0x
      have hxbeq : (br0.id == bid0) = true := by simp [hx]
      have htail : xs.map (fun br => if br.id == bid0 then
          ({ br with status := "returned", return_date := some now } : Borrow)
        else br) = xs := by
        have hpt : ∀ y ∈ xs, (if y.id == bid0 then
            ({ y with status := "returned", return_date := some now } : Borrow)
          else y) = y := by
          intro y hy
          have hyne : (y.id == bid0) = false := by
            rw [beq_eq_false_iff_ne]
            intro hcontra
            apply hnd'.1
            rw [hx, ← hcontra]
            exact List.mem_map_of_mem _ hy
          simp [hyne]
        have hmc := List.map_congr_left (g := id) hpt
        simpa using hmc
      have hhead : p ({ br0 with
          status := "returned"
          return_date := some now } : Borrow) = false := by
        by_cases hph : p ({ br0 with
            status := "returned"
            return_date := some now } : Borrow) = true
        · have hst := hp _ hph
          simp at hst
        · simpa using hph
      simp only [List.map_cons, hxbeq, if_true, htail, List.filter_cons,
        hhead, Bool.false_eq_true, if_false, hp0, List.length_cons]
    · have hbr0 : br0 ∈ xs := by
        rcases List.mem_cons.mp hmem with h | h
        · exact absurd (h ▸ hid) hx
        · exact h
      have hxbeq : (x.id == bid0) = false := by
        rw [beq_eq_false_iff_ne]
        exact hx
      simp only [List.map_cons, hxbeq, Bool.false_eq_true, if_false,
        List.filter_cons]
      by_cases hpx : p x = true
      · simp only [hpx, if_true, List.length_cons]
        have := ih hnd'.2 hbr0
        omega
      · have hpx' : p x = false := by simpa using hpx
        simp only [hpx', Bool.false_eq_true, if_false]
        exact ih hnd'.2 hbr0

/-- One circulation request preserves the single-book invariant, given
that returns never target an already-returned row. -/
theorem singleBookInv_step (bid : Nat) (total : Int) (s : LibraryState)
    (op : Op) (hinv : SingleBookInv bid total s) (hcirc : isCircB op = true)
    (hok : retOkB s op = true) : SingleBookInv bid total (applyOp s op) := by
  obtain ⟨⟨bk, hbooks, hbid, htot, hbal, hnn⟩, hbrbk, hnd, hbound⟩ := hinv
  cases op with
  | addOp t a c n => simp [isCircB] at hcirc
  | editOp bid' t a c n => simp [isCircB] at hcirc
  | deleteOp bid' => simp [isCircB] at hcirc
  | registerOp un pw => simp [isCircB] at hcirc
  | borrowOp u' b' now' =>
    by_cases hb' : (bk.id == b') = true
    · have hfind : findBook s b' = some bk := by
        unfold findBook
        rw [hbooks]
        rw [List.find?_cons_of_pos (p := fun x : Book => x.id == b') _ hb']
      have hbeq : b' = bid := by
        have h1 : bk.id = b' := by simpa using hb'
        rw [← h1, hbid]
      by_cases hle : bk.available_copies ≤ 0
      · have hbb : borrow_book s u' b' now' = .error .notAvailable := by
          unfold borrow_book
          rw [hfind]
          simp [hle]
        have happ : applyOp s (.borrowOp u' b' now') = s := by
          simp only [applyOp, hbb]
        rw [happ]
        exact ⟨⟨bk, hbooks, hbid, htot, hbal, hnn⟩, hbrbk, hnd, hbound⟩
      · cases hex : s.borrows.find? (fun br =>
            br.user_id == u' && br.book_id == b' && br.status == "borrowed") with
        | some exb =>
          have hbb : borrow_book s u' b' now' = .error .alreadyBorrowed := by
            unfold borrow_book
            rw [hfind]
            simp [hle, hex]
          have happ : applyOp s (.borrowOp u' b' now') = s := by
            simp only [applyOp, hbb]
          rw [happ]
          exact ⟨⟨bk, hbooks, hbid, htot, hbal, hnn⟩, hbrbk, hnd, hbound⟩
        | none =>
          have hbb : borrow_book s u' b' now' =
              .ok ({ s with
                books := s.books.map (fun x =>
                  if x.id == b' then
                    { x with available_copies := x.available_copies - 1 }
                  else x),
                borrows := s.borrows ++ [⟨s.nextBorrowId, u', b', now',
                  now' + fourteenDays, none, "borrowed"⟩],
                nextBorrowId := s.nextBorrowId + 1 },
                ⟨s.nextBorrowId, u', b', now', now' + fourteenDays, none,
                  "borrowed"⟩) := by
            unfold borrow_book
            rw [hfind]
            simp [hle, hex]
          have happ : applyOp s (.borrowOp u' b' now') =
              { s with
                books := s.books.map (fun x =>
                  if x.id == b' then
                    { x with available_copies := x.available_copies - 1 }
                  else x),
                borrows := s.borrows ++ [⟨s.nextBorrowId, u', b', now',
                  now' + fourteenDays, none, "borrowed"⟩],
                nextBorrowId := s.nextBorrowId + 1 } := by
            simp only [applyOp, hbb]
          rw [happ]
          refine ⟨⟨{ bk with available_copies := bk.available_copies - 1 },
            ?_, hbid, htot, ?_, ?_⟩, ?_, ?_, ?_⟩
          · show List.map (fun x =>
              if x.id == b' then
                { x with available_copies := x.available_copies - 1 }
              else x) s.books =
                [{ bk with available_copies := bk.available_copies - 1 }]
            rw [hbooks]
            simp only [List.map_cons, List.map_nil]
            rw [if_pos hb']
          · have hbal' : bk.available_copies +
                ((List.filter (fun br =>
                  br.book_id == bid && br.status == "borrowed")
                  s.borrows).length : Int) = total := hbal
            show bk.available_copies - 1 +
              ((List.filter (fun br : Borrow =>
                br.book_id == bid && br.status == "borrowed")
                (s.borrows ++ [(⟨s.nextBorrowId, u', b', now',
                  now' + fourteenDays, none, "borrowed"⟩ : Borrow)])).length : Int)
              = total
            rw [List.filter_append]
            have hsing : List.filter (fun br : Borrow =>
                br.book_id == bid && br.status == "borrowed")
                [(⟨s.nextBorrowId, u', b', now', now' + fourteenDays, none,
                  "borrowed"⟩ : Borrow)] =
                [(⟨s.nextBorrowId, u', b', now', now' + fourteenDays, none,
                  "borrowed"⟩ : Borrow)] := by
              simp [hbeq]
            rw [hsing, List.length_append]
            simp only [List.length_singleton]
            omega
          · show (0 : Int) ≤ bk.available_copies - 1
            omega
          · intro br hbr
            rcases List.mem_append.mp hbr with h | h
            · exact hbrbk br h
            · have hbn : br = ⟨s.nextBorrowId, u', b', now',
                  now' + fourteenDays, none, "borrowed"⟩ := by
                simpa using h
              subst hbn
              exact hbeq
          · show ((s.borrows ++ [(⟨s.nextBorrowId, u', b', now',
              now' + fourteenDays, none, "borrowed"⟩ : Borrow)]).map
                (fun br => br.id)).Nodup
            rw [List.map_append, List.nodup_append]
            refine ⟨hnd, by simp, ?_⟩
            intro a1 ha1 ha2
            simp only [List.map_cons, List.map_nil, List.mem_singleton] at ha2
            obtain ⟨br, hbr, hbrid⟩ := List.mem_map.mp ha1
            have hlt := hbound br hbr
            omega
          · intro br hbr
            rcases List.mem_append.mp hbr with h | h
            · exact Nat.lt_succ_of_lt (hbound br h)
            · have hbn : br = ⟨s.nextBorrowId, u', b', now',
                  now' + fourteenDays, none, "borrowed"⟩ := by
                simpa using h
              subst hbn
              exact Nat.lt_succ_self _
    · have hb'f : (bk.id == b') = false := by simpa using hb'
      have hfind : findBook s b' = none := by
        unfold findBook
        rw [hbooks]
        rw [List.find?_cons_of_neg (p := fun x : Book => x.id == b') _ hb']
        rfl
      have hbb : borrow_book s u' b' now' = .error .notFound := by
        unfold borrow_book
        rw [hfind]
      have happ : applyOp s (.borrowOp u' b' now') = s := by
        simp only [applyOp, hbb]
      rw [happ]
      exact ⟨⟨bk, hbooks, hbid, htot, hbal, hnn⟩, hbrbk, hnd, hbound⟩
  | returnOp bid0 a adm now' =>
    cases hf : findBorrow s bid0 with
    | none =>
      have hbb : return_book s bid0 a adm now' = .error .notFound := by
        unfold return_book
        rw [hf]
      have happ : applyOp s (.returnOp bid0 a adm now') = s := by
        simp only [applyOp, hbb]
      rw [happ]
      exact ⟨⟨bk, hbooks, hbid, htot, hbal, hnn⟩, hbrbk, hnd, hbound⟩
    | some br0 =>
      have hfind' : s.borrows.find? (fun br => br.id == bid0) = some br0 := hf
      have hmem0 : br0 ∈ s.borrows := List.mem_of_find?_eq_some hfind'
      have hid0 : br0.id = bid0 := by
        simpa using List.find?_some hfind'
      by_cases hauth : (br0.user_id != a && !adm) = true
      · have hbb : return_book s bid0 a adm now' = .error .notAuthorized := by
          unfold return_book
          rw [hf]
          simp [hauth]
        have happ : applyOp s (.returnOp bid0 a adm now') = s := by
          simp only [applyOp, hbb]
        rw [happ]
        exact ⟨⟨bk, hbooks, hbid, htot, hbal, hnn⟩, hbrbk, hnd, hbound⟩
      · have hbb : return_book s bid0 a adm now' =
            .ok { s with
              borrows := s.borrows.map (fun br =>
                if br.id == bid0 then
                  { br with status := "returned", return_date := some now' }
                else br),
              books := s.books.map (fun x =>
                if x.id == br0.book_id then
                  { x with available_copies := x.available_copies + 1 }
                else x) } := by
          unfold return_book
          rw [hf]
          simp [hauth]
        have happ : applyOp s (.returnOp bid0 a adm now') =
            { s with
              borrows := s.borrows.map (fun br =>
                if br.id == bid0 then
                  { br with status := "returned", return_date := some now' }
                else br),
              books := s.books.map (fun x =>
                if x.id == br0.book_id then
                  { x with available_copies := x.available_copies + 1 }
                else x) } := by
          simp only [applyOp, hbb]
        rw [happ]
        have hst0 : br0.status = "borrowed" := by
          have hall : s.borrows.all (fun br =>
              br.id != bid0 || br.status == "borrowed") = true := hok
          rw [List.all_eq_true] at hall
          have h := hall br0 hmem0
          rw [Bool.or_eq_true] at h
          rcases h with h | h
          · exact absurd hid0 (by simpa using h)
          · simpa using h
        have hbook0 : br0.book_id = bid := hbrbk br0 hmem0
        refine ⟨⟨{ bk with available_copies := bk.available_copies + 1 },
          ?_, hbid, htot, ?_, ?_⟩, ?_, ?_, ?_⟩
        · have hcc : (bk.id == br0.book_id) = true := by
            simp [hbid, hbook0]
          show List.map (fun x =>
            if x.id == br0.book_id then
              { x with available_copies := x.available_copies + 1 }
            else x) s.books =
              [{ bk with available_copies := bk.available_copies + 1 }]
          rw [hbooks]
          simp only [List.map_cons, List.map_nil]
          rw [if_pos hcc]
        · have hbal' : bk.available_copies +
              ((List.filter (fun br =>
                br.book_id == bid && br.status == "borrowed")
                s.borrows).length : Int) = total := hbal
          have hdec := length_filter_markReturned s.borrows bid0 now'
            (fun br => br.book_id == bid && br.status == "borrowed")
            (by
              intro x hx
              rw [Bool.and_eq_true] at hx
              simpa using hx.2)
            hnd br0 hmem0 hid0
            (by simp [hbook0, hst0])
          show bk.available_copies + 1 +
            ((List.filter (fun br =>
              br.book_id == bid && br.status == "borrowed")
              (s.borrows.map (fun br =>
                if br.id == bid0 then
                  { br with status := "returned", return_date := some now' }
                else br))).length : Int) = total
          omega
        · show (0 : Int) ≤ bk.available_copies + 1
          omega
        · intro br' hbr'
          obtain ⟨br, hbr, hfe⟩ := List.mem_map.mp hbr'
          have hbb' := hbrbk br hbr
          rw [← hfe]
          by_cases hcc : (br.id == bid0) = true
          · simp [hcc, hbb']
          · have hccf : (br.id == bid0) = false := by simpa using hcc
            simp [hccf, hbb']
        · show ((s.borrows.map (fun br =>
            if br.id == bid0 then
              { br with status := "returned", return_date := some now' }
            else br)).map (fun br => br.id)).Nodup
          have hmapid : (s.borrows.map (fun br =>
              if br.id == bid0 then
                ({ br with status := "returned", return_date := some now' } : Borrow)
              else br)).map (fun br => br.id) =
              s.borrows.map (fun br => br.id) := by
            rw [List.map_map]
            apply List.map_congr_left
            intro y hy
            by_cases hcc : (y.id == bid0) = true
            · simp [Function.comp, hcc]
            · have hccf : (y.id == bid0) = false := by simpa using hcc
              simp [Function.comp, hccf]
          rw [hmapid]
          exact hnd
        · intro br' hbr'
          obtain ⟨br, hbr, hfe⟩ := List.mem_map.mp hbr'
          have hlt := hbound br hbr
          rw [← hfe]
          show (if (br.id == bid0) = true then
              ({ br with status := "returned", return_date := some now' } : Borrow)
            else br).id < s.nextBorrowId
          by_cases hcc : (br.id == bid0) = true
          · simpa [hcc] using hlt
          · have hccf : (br.id == bid0) = false := by simpa using hcc
            simpa [hccf] using hlt

/-- The single-book invariant holds in an initial store with one book,
no borrow rows, and all copies on the shelf. -/
theorem singleBookInv_init (bk : Book) (users : List User)
    (nu nbk nbr : Nat) (htot : bk.available_copies = bk.total_copies)
    (hpos : 0 ≤ bk.total_copies) :
    SingleBookInv bk.id bk.total_copies ⟨users, [bk], [], nu, nbk, nbr⟩ := by
  refine ⟨⟨bk, rfl, rfl, rfl, ?_, ?_⟩, ?_, ?_, ?_⟩
  · have h0 : activeBorrowsFor ⟨users, [bk], [], nu, nbk, nbr⟩ bk.id = 0 :=
      rfl
    show bk.available_copies +
      ((activeBorrowsFor ⟨users, [bk], [], nu, nbk, nbr⟩ bk.id : Nat) : Int) =
      bk.total_copies
    rw [h0, htot]
    simp
  · show (0 : Int) ≤ bk.available_copies
    rw [htot]
    exact hpos
  · intro br hbr
    cases hbr
  · exact List.nodup_nil
  · intro br hbr
    cases hbr

/-- The single-book invariant is preserved along any circulation-only
request sequence that never returns an already-returned row. -/
theorem singleBookInv_seq (bid : Nat) (total : Int) (s : LibraryState)
    (ops : List Op) (hinv : SingleBookInv bid total s)
    (hcirc : ops.all isCircB = true)
    (hok : noDoubleReturnB s ops = true) :
    SingleBookInv bid total (applySeq s ops) := by
  induction ops generalizing s with
  | nil => exact hinv
  | cons op ops ih =>
    rw [List.all_cons, Bool.and_eq_true] at hcirc
    unfold noDoubleReturnB at hok
    rw [Bool.and_eq_true] at hok
    show SingleBookInv bid total (applySeq (applyOp s op) ops)
    exact ih (applyOp s op)
      (singleBookInv_step bid total s op hinv hcirc.1 hok.1) hcirc.2 hok.2

/-- Counterexample to Claim C1 as stated: starting from one book with
available_copies = total_copies = 1 and no borrows, the
circulation-only sequence borrow, return, return (the same borrow row
returned twice) drives available_copies to 2 > total_copies. -/
theorem available_exceeds_total_cex :
    oneBookLib.books.map (fun b => (b.total_copies, b.available_copies))
      = [(1, 1)] ∧
    oneBookLib.borrows = [] ∧
    doubleReturnOps.all isCircB = true ∧
    (applySeq oneBookLib doubleReturnOps).books.map
      (fun b => (b.total_copies, b.available_copies)) = [(1, 2)] :=
  ⟨rfl, rfl, rfl, rfl⟩

/-- Claim C1 (amended): starting from a single-book store with
available_copies = total_copies ≥ 0 and no borrow rows, any sequence of
borrow/return requests in which no return targets an already-returned
borrow row keeps the book's available_copies within [0, total_copies]. -/
theorem available_copies_in_range (bk : Book) (users : List User)
    (nu nbk nbr : Nat) (ops : List Op)
    (htot : bk.available_copies = bk.total_copies)
    (hpos : 0 ≤ bk.total_copies)
    (hcirc : ops.all isCircB = true)
    (hok : noDoubleReturnB ⟨users, [bk], [], nu, nbk, nbr⟩ ops = true) :
    ∀ b' ∈ (applySeq ⟨users, [bk], [], nu, nbk, nbr⟩ ops).books,
      0 ≤ b'.available_copies ∧ b'.available_copies ≤ bk.total_copies := by
  have hfin := singleBookInv_seq bk.id bk.total_copies _ ops
    (singleBookInv_init bk users nu nbk nbr htot hpos) hcirc hok
  obtain ⟨⟨bk', hbooks, hbid', htot', hbal, hnn⟩, -, -, -⟩ := hfin
  intro b' hb'
  rw [hbooks] at hb'
  have hbb : b' = bk' := by simpa using hb'
  subst hbb
  refine ⟨hnn, ?_⟩
  omega

/-- Witness for C1: two copies; borrow, return, borrow again leaves one
available copy, inside [0, 2]. -/
theorem available_copies_in_range_witness :
    0 ≤ (⟨1, "T", "A", "C", 2, 1⟩ : Book).available_copies ∧
    (⟨1, "T", "A", "C", 2, 1⟩ : Book).available_copies ≤
      (⟨1, "T", "A", "C", 2, 2⟩ : Book).total_copies :=
  available_copies_in_range ⟨1, "T", "A", "C", 2, 2⟩ [] 1 2 1 wellBehavedOps
    rfl (by decide) rfl rfl ⟨1, "T", "A", "C", 2, 1⟩ (by decide)
